import Mathlib

/-!
Shallow embedding of the siren audio player core (src/main.cpp):
the decoder adapter (decodePacket), the sample repacker and the
PortAudio fill callback (pa_stream_cb).

Bytes are natural numbers (uint8_t values).  The external libav calls
(av_read_frame, avcodec_send_packet, avcodec_receive_frame) are modelled
by their observable results: each Packet carries the return value of
avcodec_send_packet and the sequence of avcodec_receive_frame outcomes;
the demux source is a list of Packets, exhausted when empty.  Reads
that the C++ performs past the end of a buffer (memcpy over-reads) are
modelled by an explicit `junk` function supplying the indeterminate
bytes found there.
-/

set_option autoImplicit false

abbrev Byte := Nat

/-- One element of the frame queue: the byte block the callback pushes. -/
abbrev SampleFrame := List Byte

/-- AVERROR(EAGAIN) on Linux: -EAGAIN. -/
def AVERROR_EAGAIN : Int := -11

/-- AVERROR_EOF: -MKTAG of the four chars E, O, F, space. -/
def AVERROR_EOF : Int := -541478725

/-- AVERROR(EINVAL) on Linux: -EINVAL. -/
def AVERROR_EINVAL : Int := -22

/-- AVERROR(ENOMEM) on Linux: -ENOMEM. -/
def AVERROR_ENOMEM : Int := -12

/-- One outcome of avcodec_receive_frame inside the decodePacket loop:
either a decoded frame (return value 0, with its data planes and sample
count) or a bare negative return code. -/
inductive RecvEvent where
  | err (code : Int)
  | frame (planes : List (List Byte)) (nbSamples : Nat)
  deriving DecidableEq

/-- decodePacket, planar branch of the receive loop (main.cpp lines 57-61):
for each channel i below `channels`, append lineSize = nbSamples *
bytesPerSample bytes of plane i to data[i]. -/
def appendPlanarFrame (channels bytesPerSample nbSamples : Nat)
    (planes data : List (List Byte)) : List (List Byte) :=
  (List.range channels).map
    (fun i => data.getD i [] ++ (planes.getD i []).take (nbSamples * bytesPerSample))

/-- decodePacket, interleaved branch of the receive loop (lines 62-65):
append lineSize = nbSamples * bytesPerSample * channels bytes of plane 0
to data[0]. -/
def appendInterleavedFrame (channels bytesPerSample nbSamples : Nat)
    (planes data : List (List Byte)) : List (List Byte) :=
  [data.getD 0 [] ++ (planes.getD 0 []).take (nbSamples * bytesPerSample * channels)]

/-- The receive loop of decodePacket (lines 48-76): pull frames until the
decoder reports EAGAIN or EOF (success, return 0) or another negative
code (the error is returned).  Returns the final return value together
with the accumulated per-channel data. -/
def recvLoop (isPlanarAudio : Bool) (channels bytesPerSample : Nat) :
    List RecvEvent → List (List Byte) → Int × List (List Byte)
  | [], data => (0, data)
  | RecvEvent.err code :: _, data =>
      if code = AVERROR_EAGAIN ∨ code = AVERROR_EOF then (0, data) else (code, data)
  | RecvEvent.frame planes nbSamples :: rest, data =>
      recvLoop isPlanarAudio channels bytesPerSample rest
        (if isPlanarAudio then appendPlanarFrame channels bytesPerSample nbSamples planes data
         else appendInterleavedFrame channels bytesPerSample nbSamples planes data)

/-- decodePacket (lines 28-79): submit the packet; on a negative
send result return it with the untouched (empty) data, otherwise resize
data to `channels` buffers (planar) or one buffer (interleaved) and run
the receive loop. -/
def decodePacket (isPlanarAudio : Bool) (channels bytesPerSample : Nat)
    (sendRes : Int) (events : List RecvEvent) : Int × List (List Byte) :=
  if sendRes < 0 then (sendRes, [])
  else recvLoop isPlanarAudio channels bytesPerSample events
    (List.replicate (if isPlanarAudio then channels else 1) [])

/-- memcpy of n bytes starting at `offset` in `buf`: positions past the
end of buf hold indeterminate bytes supplied by `junk` (the C++ reads out
of bounds there). -/
def readBytes (buf : List Byte) (junk : Nat → Byte) (offset n : Nat) : List Byte :=
  (List.range n).map (fun i => buf.getD (offset + i) (junk (offset + i)))

/-- The repack loops of pa_stream_cb (lines 116-125 and 130-133): starting
at `offset`, while offset < len emit the frame built at offset and advance
by `step`.  (A zero step would loop forever in the C++; the model stops.) -/
def repackLoop (step len : Nat) (mk : Nat → SampleFrame) (offset : Nat) :
    List SampleFrame :=
  if _h : 0 < step ∧ offset < len then mk offset :: repackLoop step len mk (offset + step)
  else []
termination_by len - offset
decreasing_by omega

/-- The session-constant stream parameters used by the callback. -/
structure StreamParams where
  isPlanarAudio : Bool
  bytesPerSample : Nat
  numChannels : Nat
  audioStreamIndex : Int
  deriving DecidableEq

/-- The byte size of one interleaved sample frame. -/
def frameSize (p : StreamParams) : Nat := p.numChannels * p.bytesPerSample

/-- One av_read_frame result: the packet stream index plus the decoder
responses the packet would elicit. -/
structure Packet where
  streamIndex : Int
  sendRes : Int
  events : List RecvEvent
  deriving DecidableEq

/-- Planar repack (lines 114-125): step over packetData[0] by
bytesPerSample; at each offset build one frame by concatenating the
bytesPerSample-byte slice of every channel buffer in channel order. -/
def repackPlanar (p : StreamParams) (junk : Nat → Nat → Byte)
    (packetData : List (List Byte)) : List SampleFrame :=
  repackLoop p.bytesPerSample (packetData.headD []).length
    (fun offset =>
      ((List.range p.numChannels).map
        (fun ch => readBytes (packetData.getD ch []) (junk ch) offset p.bytesPerSample)).flatten)
    0

/-- Interleaved repack (lines 126-134): step over packetData[0] by
numChannels * bytesPerSample, copying that many bytes at each offset. -/
def repackInterleaved (p : StreamParams) (junk : Nat → Nat → Byte)
    (packetData : List (List Byte)) : List SampleFrame :=
  repackLoop (p.numChannels * p.bytesPerSample) (packetData.headD []).length
    (fun offset =>
      readBytes (packetData.headD []) (junk 0) offset (p.numChannels * p.bytesPerSample))
    0

/-- The decode return codes the callback treats as fatal (lines 99-102):
every other negative return makes it skip the packet instead. -/
def isFatalDecodeRet (ret : Int) : Bool :=
  ret == AVERROR_EAGAIN || ret == AVERROR_EOF || ret == AVERROR_EINVAL || ret == AVERROR_ENOMEM

/-- The two PaStreamCallbackResult values the callback returns. -/
inductive PaResult where
  | paContinue
  | paComplete
  deriving DecidableEq

/-- Result of the refill while-loop (lines 91-152): either the loop exits
with the queue holding at least frameCount frames, or a return statement
inside the loop ends the callback with paComplete, some bytes written and
the queue and source left as they are at the return. -/
inductive RefillOut where
  | done (queue : List SampleFrame) (source : List Packet)
  | complete (written : List Byte) (queue : List SampleFrame) (source : List Packet)
  deriving DecidableEq

/-- The refill while-loop of pa_stream_cb (lines 91-152).  While the queue
holds fewer than frameCount frames: read the next packet; at end of
source, flush the whole queue to the output and return paComplete; skip
packets of other streams; decode audio packets, skipping on non-fatal
errors and returning paComplete on fatal ones; push the repacked frames. -/
def refillLoop (p : StreamParams) (junk : Nat → Nat → Byte) (frameCount : Nat)
    (queue : List SampleFrame) (source : List Packet) : RefillOut :=
    if queue.length < frameCount then
      match source with
      | [] => RefillOut.complete queue.flatten [] []
      | pkt :: rest =>
          if pkt.streamIndex = p.audioStreamIndex then
            let dec := decodePacket p.isPlanarAudio p.numChannels p.bytesPerSample
              pkt.sendRes pkt.events
            if dec.1 < 0 then
              if ! isFatalDecodeRet dec.1 then
                refillLoop p junk frameCount queue rest
              else
                RefillOut.complete [] queue rest
            else
              refillLoop p junk frameCount
                (queue ++ (if p.isPlanarAudio then repackPlanar p junk dec.2
                           else repackInterleaved p junk dec.2)) rest
          else
            refillLoop p junk frameCount queue rest
    else RefillOut.done queue source

/-- The output-writing for-loop of pa_stream_cb (lines 157-162): pop n
frames off the front of the queue, concatenating their bytes into the
output buffer.  (Popping an empty queue would be undefined in the C++;
the loop is only reached with at least frameCount frames queued.) -/
def popWrite : Nat → List SampleFrame → List Byte × List SampleFrame
  | 0, queue => ([], queue)
  | _ + 1, [] => ([], [])
  | n + 1, fr :: queue =>
      let rest := popWrite n queue
      (fr ++ rest.1, rest.2)

/-- The observable outcome of one pa_stream_cb invocation: the returned
PaStreamCallbackResult, the bytes written to outputBuffer, and the final
frame queue and remaining source. -/
structure CbResult where
  result : PaResult
  written : List Byte
  queue : List SampleFrame
  source : List Packet
  deriving DecidableEq

/-- pa_stream_cb (lines 81-165): refill the queue, then either propagate
the paComplete return from inside the loop, or pop frameCount frames into
the output buffer and return paContinue. -/
def pa_stream_cb (p : StreamParams) (junk : Nat → Nat → Byte) (frameCount : Nat)
    (queue : List SampleFrame) (source : List Packet) : CbResult :=
  match refillLoop p junk frameCount queue source with
  | RefillOut.complete written q s => CbResult.mk PaResult.paComplete written q s
  | RefillOut.done q s =>
      let out := popWrite frameCount q
      CbResult.mk PaResult.paContinue out.1 out.2 s

/-- The AVSampleFormat values (libavutil), in enum order. -/
inductive AVSampleFormat where
  | AV_SAMPLE_FMT_NONE
  | AV_SAMPLE_FMT_U8
  | AV_SAMPLE_FMT_S16
  | AV_SAMPLE_FMT_S32
  | AV_SAMPLE_FMT_FLT
  | AV_SAMPLE_FMT_DBL
  | AV_SAMPLE_FMT_U8P
  | AV_SAMPLE_FMT_S16P
  | AV_SAMPLE_FMT_S32P
  | AV_SAMPLE_FMT_FLTP
  | AV_SAMPLE_FMT_DBLP
  | AV_SAMPLE_FMT_S64
  | AV_SAMPLE_FMT_S64P
  deriving DecidableEq, Fintype

/-- The PaSampleFormat values getPaSampleFormat can produce. -/
inductive PaSampleFormat where
  | paUInt8
  | paInt16
  | paInt32
  | paFloat32
  deriving DecidableEq

/-- getPaSampleFormat (lines 167-197): map the stream sample format to a
PortAudio format; the bool out-parameter convention becomes Option. -/
def getPaSampleFormat : AVSampleFormat → Option PaSampleFormat
  | AVSampleFormat.AV_SAMPLE_FMT_U8 => some PaSampleFormat.paUInt8
  | AVSampleFormat.AV_SAMPLE_FMT_U8P => some PaSampleFormat.paUInt8
  | AVSampleFormat.AV_SAMPLE_FMT_S16 => some PaSampleFormat.paInt16
  | AVSampleFormat.AV_SAMPLE_FMT_S16P => some PaSampleFormat.paInt16
  | AVSampleFormat.AV_SAMPLE_FMT_S32 => some PaSampleFormat.paInt32
  | AVSampleFormat.AV_SAMPLE_FMT_S32P => some PaSampleFormat.paInt32
  | AVSampleFormat.AV_SAMPLE_FMT_FLT => some PaSampleFormat.paFloat32
  | AVSampleFormat.AV_SAMPLE_FMT_FLTP => some PaSampleFormat.paFloat32
  | _ => none

/-- Sample-format negotiation in main (lines 369-373): the program aborts
with an unsupported-sample-format error exactly when getPaSampleFormat
reports failure. -/
def mainAcceptsSampleFormat (f : AVSampleFormat) : Bool :=
  (getPaSampleFormat f).isSome

/-! ### Basic lemmas about the byte-copy and repack primitives -/

theorem readBytes_length (buf : List Byte) (junk : Nat → Byte) (offset n : Nat) :
    (readBytes buf junk offset n).length = n := by
  simp [readBytes]

theorem readBytes_in_bounds (buf : List Byte) (junk : Nat → Byte) (offset n : Nat)
    (h : offset + n ≤ buf.length) :
    readBytes buf junk offset n = (buf.drop offset).take n := by
  apply List.ext_getElem
  · simp [readBytes]; omega
  · intro i h1 h2
    have hi : i < n := by simpa [readBytes] using h1
    simp only [readBytes, List.getElem_map, List.getElem_range, List.getElem_take,
      List.getElem_drop, List.getD_eq_getElem?_getD]
    rw [List.getElem?_eq_getElem (by omega)]
    simp

theorem flatten_length_const {α : Type} (b : Nat) :
    ∀ ls : List (List α), (∀ l ∈ ls, l.length = b) → ls.flatten.length = ls.length * b
  | [], _ => by simp
  | l :: ls, hall => by
    simp only [List.flatten_cons, List.length_append, List.length_cons]
    rw [flatten_length_const b ls (fun x hx => hall x (List.mem_cons_of_mem _ hx)),
      hall l (List.mem_cons_self l ls)]
    ring

theorem flatten_fixed_slice {α : Type} (b : Nat) :
    ∀ (ls : List (List α)) (c : Nat), (∀ l ∈ ls, l.length = b) → c < ls.length →
      (ls.flatten.drop (c * b)).take b = ls.getD c []
  | [], c, _, hc => absurd hc (by simp)
  | l :: ls, 0, hall, _ => by
    have hl : l.length = b := hall l (List.mem_cons_self l ls)
    simp only [List.flatten_cons, Nat.zero_mul, List.drop_zero, List.getD_cons_zero]
    rw [List.take_append_of_le_length (by omega), ← hl, List.take_length]
  | l :: ls, c + 1, hall, hc => by
    have hl : l.length = b := hall l (List.mem_cons_self l ls)
    simp only [List.flatten_cons, List.getD_cons_succ]
    have harith : (c + 1) * b = l.length + c * b := by rw [hl]; ring
    rw [harith, List.drop_append]
    exact flatten_fixed_slice b ls c (fun x hx => hall x (List.mem_cons_of_mem _ hx))
      (by simpa using hc)

theorem popWrite_eq (n : Nat) :
    ∀ queue : List SampleFrame, n ≤ queue.length →
      popWrite n queue = ((queue.take n).flatten, queue.drop n) := by
  induction n with
  | zero => intro queue h; simp [popWrite]
  | succ n ih =>
    intro queue h
    match queue with
    | [] => simp at h
    | fr :: queue =>
      simp only [popWrite, List.take_succ_cons, List.drop_succ_cons, List.flatten_cons]
      rw [ih queue (by simpa using h)]

/-! ### Step lemmas for the repack loop -/

theorem repackLoop_stop (step len : Nat) (mk : Nat → SampleFrame) (offset : Nat)
    (h : ¬ (0 < step ∧ offset < len)) : repackLoop step len mk offset = [] := by
  rw [repackLoop.eq_def, dif_neg h]

theorem repackLoop_step (step len : Nat) (mk : Nat → SampleFrame) (offset : Nat)
    (h : 0 < step ∧ offset < len) :
    repackLoop step len mk offset = mk offset :: repackLoop step len mk (offset + step) := by
  rw [repackLoop.eq_def, dif_pos h]

theorem repackLoop_length_mul (step : Nat) (mk : Nat → SampleFrame) (hstep : 0 < step) :
    ∀ (n offset : Nat), (repackLoop step (offset + n * step) mk offset).length = n := by
  intro n
  induction n with
  | zero => intro offset; rw [repackLoop_stop step _ mk offset (by omega)]; rfl
  | succ n ih =>
    intro offset
    have hpos : 0 < (n + 1) * step := Nat.mul_pos (Nat.succ_pos n) hstep
    rw [repackLoop_step step _ mk offset ⟨hstep, by omega⟩]
    simp only [List.length_cons]
    have harith : offset + (n + 1) * step = (offset + step) + n * step := by ring
    rw [harith, ih (offset + step)]

theorem repackLoop_getD_mul (step : Nat) (mk : Nat → SampleFrame) (hstep : 0 < step) :
    ∀ (n offset j : Nat), j < n →
      (repackLoop step (offset + n * step) mk offset).getD j [] = mk (offset + j * step) := by
  intro n
  induction n with
  | zero => intro offset j hj; omega
  | succ n ih =>
    intro offset j hj
    have hpos : 0 < (n + 1) * step := Nat.mul_pos (Nat.succ_pos n) hstep
    rw [repackLoop_step step _ mk offset ⟨hstep, by omega⟩]
    match j with
    | 0 => simp
    | j + 1 =>
      simp only [List.getD_cons_succ]
      have harith : offset + (n + 1) * step = (offset + step) + n * step := by ring
      rw [harith, ih (offset + step) j (by omega)]
      congr 1
      ring

theorem repackLoop_mem (step len : Nat) (mk : Nat → SampleFrame) :
    ∀ (d offset : Nat), len - offset ≤ d →
      ∀ f ∈ repackLoop step len mk offset, ∃ o, f = mk o := by
  intro d
  induction d with
  | zero =>
    intro offset hd f hf
    rw [repackLoop_stop step len mk offset (by omega)] at hf
    exact absurd hf (List.not_mem_nil f)
  | succ d ih =>
    intro offset hd f hf
    by_cases hc : 0 < step ∧ offset < len
    · rw [repackLoop_step step len mk offset hc] at hf
      rcases List.mem_cons.mp hf with h | h
      · exact ⟨offset, h⟩
      · exact ih (offset + step) (by omega) f h
    · rw [repackLoop_stop step len mk offset hc] at hf
      exact absurd hf (List.not_mem_nil f)

/-! ### Step lemmas for the refill loop -/

theorem refillLoop_not_lt (p : StreamParams) (junk : Nat → Nat → Byte) (frameCount : Nat)
    (queue : List SampleFrame) (source : List Packet)
    (h : ¬ queue.length < frameCount) :
    refillLoop p junk frameCount queue source = RefillOut.done queue source := by
  rw [refillLoop.eq_def, if_neg h]

theorem refillLoop_eos (p : StreamParams) (junk : Nat → Nat → Byte) (frameCount : Nat)
    (queue : List SampleFrame) (h : queue.length < frameCount) :
    refillLoop p junk frameCount queue [] = RefillOut.complete queue.flatten [] [] := by
  rw [refillLoop.eq_def, if_pos h]

theorem refillLoop_foreign (p : StreamParams) (junk : Nat → Nat → Byte) (frameCount : Nat)
    (queue : List SampleFrame) (pkt : Packet) (rest : List Packet)
    (h : queue.length < frameCount) (hidx : ¬ pkt.streamIndex = p.audioStreamIndex) :
    refillLoop p junk frameCount queue (pkt :: rest) =
      refillLoop p junk frameCount queue rest := by
  rw [refillLoop.eq_def, if_pos h]
  simp only [if_neg hidx]

theorem refillLoop_nonfatal (p : StreamParams) (junk : Nat → Nat → Byte) (frameCount : Nat)
    (queue : List SampleFrame) (pkt : Packet) (rest : List Packet)
    (h : queue.length < frameCount) (hidx : pkt.streamIndex = p.audioStreamIndex)
    (hdec : (decodePacket p.isPlanarAudio p.numChannels p.bytesPerSample
      pkt.sendRes pkt.events).1 < 0)
    (hnf : isFatalDecodeRet (decodePacket p.isPlanarAudio p.numChannels p.bytesPerSample
      pkt.sendRes pkt.events).1 = false) :
    refillLoop p junk frameCount queue (pkt :: rest) =
      refillLoop p junk frameCount queue rest := by
  rw [refillLoop.eq_def, if_pos h]
  simp only [if_pos hidx, hnf, if_pos hdec]
  rfl

theorem refillLoop_fatal (p : StreamParams) (junk : Nat → Nat → Byte) (frameCount : Nat)
    (queue : List SampleFrame) (pkt : Packet) (rest : List Packet)
    (h : queue.length < frameCount) (hidx : pkt.streamIndex = p.audioStreamIndex)
    (hdec : (decodePacket p.isPlanarAudio p.numChannels p.bytesPerSample
      pkt.sendRes pkt.events).1 < 0)
    (hf : isFatalDecodeRet (decodePacket p.isPlanarAudio p.numChannels p.bytesPerSample
      pkt.sendRes pkt.events).1 = true) :
    refillLoop p junk frameCount queue (pkt :: rest) =
      RefillOut.complete [] queue rest := by
  rw [refillLoop.eq_def, if_pos h]
  simp only [if_pos hidx, hf, if_pos hdec]
  rfl

theorem refillLoop_push (p : StreamParams) (junk : Nat → Nat → Byte) (frameCount : Nat)
    (queue : List SampleFrame) (pkt : Packet) (rest : List Packet)
    (h : queue.length < frameCount) (hidx : pkt.streamIndex = p.audioStreamIndex)
    (hdec : ¬ (decodePacket p.isPlanarAudio p.numChannels p.bytesPerSample
      pkt.sendRes pkt.events).1 < 0) :
    refillLoop p junk frameCount queue (pkt :: rest) =
      refillLoop p junk frameCount
        (queue ++ (if p.isPlanarAudio then
            repackPlanar p junk (decodePacket p.isPlanarAudio p.numChannels p.bytesPerSample
              pkt.sendRes pkt.events).2
          else
            repackInterleaved p junk (decodePacket p.isPlanarAudio p.numChannels p.bytesPerSample
              pkt.sendRes pkt.events).2)) rest := by
  rw [refillLoop.eq_def, if_pos h]
  simp only [if_pos hidx, if_neg hdec]

/-! ### Frame sizes produced by the two repack paths -/

theorem repackPlanar_frame_length (p : StreamParams) (junk : Nat → Nat → Byte)
    (packetData : List (List Byte)) (f : SampleFrame)
    (hf : f ∈ repackPlanar p junk packetData) : f.length = frameSize p := by
  obtain ⟨o, rfl⟩ := repackLoop_mem p.bytesPerSample (packetData.headD []).length _
    (packetData.headD []).length 0 (by omega) f hf
  rw [flatten_length_const p.bytesPerSample]
  · simp [frameSize, Nat.mul_comm]
  · intro l hl
    obtain ⟨ch, _, rfl⟩ := List.mem_map.mp hl
    exact readBytes_length _ _ _ _

theorem repackInterleaved_frame_length (p : StreamParams) (junk : Nat → Nat → Byte)
    (packetData : List (List Byte)) (f : SampleFrame)
    (hf : f ∈ repackInterleaved p junk packetData) : f.length = frameSize p := by
  obtain ⟨o, rfl⟩ := repackLoop_mem (p.numChannels * p.bytesPerSample)
    (packetData.headD []).length _ (packetData.headD []).length 0 (by omega) f hf
  exact readBytes_length _ _ _ _

/-! ### Invariants of the refill loop -/

theorem refillLoop_done_le (p : StreamParams) (junk : Nat → Nat → Byte) (frameCount : Nat) :
    ∀ (source : List Packet) (queue q : List SampleFrame) (s : List Packet),
      refillLoop p junk frameCount queue source = RefillOut.done q s →
      frameCount ≤ q.length := by
  intro source
  induction source with
  | nil =>
    intro queue q s h
    by_cases hlt : queue.length < frameCount
    · rw [refillLoop_eos p junk frameCount queue hlt] at h
      exact RefillOut.noConfusion h
    · rw [refillLoop_not_lt p junk frameCount queue [] hlt] at h
      cases h
      omega
  | cons pkt rest ih =>
    intro queue q s h
    by_cases hlt : queue.length < frameCount
    · by_cases hidx : pkt.streamIndex = p.audioStreamIndex
      · by_cases hdec : (decodePacket p.isPlanarAudio p.numChannels p.bytesPerSample
          pkt.sendRes pkt.events).1 < 0
        · by_cases hfat : isFatalDecodeRet (decodePacket p.isPlanarAudio p.numChannels
            p.bytesPerSample pkt.sendRes pkt.events).1 = true
          · rw [refillLoop_fatal p junk frameCount queue pkt rest hlt hidx hdec hfat] at h
            exact RefillOut.noConfusion h
          · rw [refillLoop_nonfatal p junk frameCount queue pkt rest hlt hidx hdec
              (Bool.not_eq_true _ ▸ hfat)] at h
            exact ih queue q s h
        · rw [refillLoop_push p junk frameCount queue pkt rest hlt hidx hdec] at h
          exact ih _ q s h
      · rw [refillLoop_foreign p junk frameCount queue pkt rest hlt hidx] at h
        exact ih queue q s h
    · rw [refillLoop_not_lt p junk frameCount queue (pkt :: rest) hlt] at h
      cases h
      omega

theorem refillLoop_done_frames (p : StreamParams) (junk : Nat → Nat → Byte) (frameCount : Nat) :
    ∀ (source : List Packet) (queue q : List SampleFrame) (s : List Packet),
      (∀ f ∈ queue, f.length = frameSize p) →
      refillLoop p junk frameCount queue source = RefillOut.done q s →
      ∀ f ∈ q, f.length = frameSize p := by
  intro source
  induction source with
  | nil =>
    intro queue q s hq h
    by_cases hlt : queue.length < frameCount
    · rw [refillLoop_eos p junk frameCount queue hlt] at h
      exact RefillOut.noConfusion h
    · rw [refillLoop_not_lt p junk frameCount queue [] hlt] at h
      cases h
      exact hq
  | cons pkt rest ih =>
    intro queue q s hq h
    by_cases hlt : queue.length < frameCount
    · by_cases hidx : pkt.streamIndex = p.audioStreamIndex
      · by_cases hdec : (decodePacket p.isPlanarAudio p.numChannels p.bytesPerSample
          pkt.sendRes pkt.events).1 < 0
        · by_cases hfat : isFatalDecodeRet (decodePacket p.isPlanarAudio p.numChannels
            p.bytesPerSample pkt.sendRes pkt.events).1 = true
          · rw [refillLoop_fatal p junk frameCount queue pkt rest hlt hidx hdec hfat] at h
            exact RefillOut.noConfusion h
          · rw [refillLoop_nonfatal p junk frameCount queue pkt rest hlt hidx hdec
              (Bool.not_eq_true _ ▸ hfat)] at h
            exact ih queue q s hq h
        · rw [refillLoop_push p junk frameCount queue pkt rest hlt hidx hdec] at h
          refine ih _ q s ?_ h
          intro f hf
          rcases List.mem_append.mp hf with hf | hf
          · exact hq f hf
          · by_cases hpl : p.isPlanarAudio
            · rw [if_pos hpl] at hf
              exact repackPlanar_frame_length p junk _ f hf
            · rw [if_neg hpl] at hf
              exact repackInterleaved_frame_length p junk _ f hf
      · rw [refillLoop_foreign p junk frameCount queue pkt rest hlt hidx] at h
        exact ih queue q s hq h
    · rw [refillLoop_not_lt p junk frameCount queue (pkt :: rest) hlt] at h
      cases h
      exact hq

/-! ### Claim theorems -/

/-- C9: invoking the fill callback with a requested frame count of 0 leaves
the frame queue unchanged: the refill while-loop is never entered (an
unsigned size is never below 0), no frame is popped and no packet is read
from the source, and the callback returns paContinue having written
nothing.  Repeated 0-length requests are therefore idempotent on the
queue. -/
theorem c9_zero_request_leaves_queue (p : StreamParams) (junk : Nat → Nat → Byte)
    (queue : List SampleFrame) (source : List Packet) :
    pa_stream_cb p junk 0 queue source =
      CbResult.mk PaResult.paContinue [] queue source := by
  unfold pa_stream_cb
  rw [refillLoop_not_lt p junk 0 queue source (by omega)]
  rfl

/-- C3: if reading the next packet reports end of source (the source list
is exhausted) while the queue holds fewer than frameCount frames, the
callback writes every remaining queued frame to the output buffer in FIFO
order (their bytes concatenated front to back), leaves the queue empty,
and returns paComplete. -/
theorem c3_drain_on_end_of_source (p : StreamParams) (junk : Nat → Nat → Byte)
    (frameCount : Nat) (queue : List SampleFrame)
    (h : queue.length < frameCount) :
    pa_stream_cb p junk frameCount queue [] =
      CbResult.mk PaResult.paComplete queue.flatten [] [] := by
  unfold pa_stream_cb
  rw [refillLoop_eos p junk frameCount queue h]

/-- C3 witness: with one queued frame and a request for two, the callback
drains the frame and completes. -/
theorem c3_drain_on_end_of_source_witness :
    ([[1, 2]] : List SampleFrame).length < 2 ∧
      pa_stream_cb (StreamParams.mk false 2 1 0) (fun _ _ => 0) 2 [[1, 2]] [] =
        CbResult.mk PaResult.paComplete [1, 2] [] [] :=
  ⟨by decide, c3_drain_on_end_of_source (StreamParams.mk false 2 1 0) (fun _ _ => 0) 2
    [[1, 2]] (by decide)⟩

/-- C8: a packet whose stream index differs from the selected audio stream
index is discarded without being decoded: the callback behaves exactly as
if the source had begun at the following packet, so no frame derived from
the foreign packet ever reaches the queue. -/
theorem c8_foreign_packet_discarded (p : StreamParams) (junk : Nat → Nat → Byte)
    (frameCount : Nat) (queue : List SampleFrame) (pkt : Packet) (rest : List Packet)
    (h : queue.length < frameCount) (hidx : pkt.streamIndex ≠ p.audioStreamIndex) :
    pa_stream_cb p junk frameCount queue (pkt :: rest) =
      pa_stream_cb p junk frameCount queue rest := by
  unfold pa_stream_cb
  rw [refillLoop_foreign p junk frameCount queue pkt rest h hidx]

/-- C8 witness: a packet with stream index 1 is ignored when the audio
stream index is 0. -/
theorem c8_foreign_packet_discarded_witness :
    (([] : List SampleFrame).length < 1 ∧ (Packet.mk 1 0 []).streamIndex ≠ (0 : Int)) ∧
      pa_stream_cb (StreamParams.mk false 1 1 0) (fun _ _ => 0) 1 [] [Packet.mk 1 0 []] =
        pa_stream_cb (StreamParams.mk false 1 1 0) (fun _ _ => 0) 1 [] [] :=
  ⟨⟨by decide, by decide⟩, c8_foreign_packet_discarded (StreamParams.mk false 1 1 0)
    (fun _ _ => 0) 1 [] (Packet.mk 1 0 []) [] (by decide) (by decide)⟩

/-- C5: when decoding an audio-stream packet fails (negative decode
return), the callback follows the skip-and-retry policy: on a non-fatal
return it discards the packet and continues its refill loop with the next
packet, behaving exactly as if the source had begun there, so a single
bad packet never terminates playback; on a fatal return (EAGAIN, EOF,
EINVAL or ENOMEM) it returns paComplete instead of continuing. -/
theorem c5_decode_error_policy (p : StreamParams) (junk : Nat → Nat → Byte)
    (frameCount : Nat) (queue : List SampleFrame) (pkt : Packet) (rest : List Packet)
    (h : queue.length < frameCount) (hidx : pkt.streamIndex = p.audioStreamIndex)
    (hdec : (decodePacket p.isPlanarAudio p.numChannels p.bytesPerSample
      pkt.sendRes pkt.events).1 < 0) :
    (isFatalDecodeRet (decodePacket p.isPlanarAudio p.numChannels p.bytesPerSample
        pkt.sendRes pkt.events).1 = false →
      pa_stream_cb p junk frameCount queue (pkt :: rest) =
        pa_stream_cb p junk frameCount queue rest) ∧
    (isFatalDecodeRet (decodePacket p.isPlanarAudio p.numChannels p.bytesPerSample
        pkt.sendRes pkt.events).1 = true →
      pa_stream_cb p junk frameCount queue (pkt :: rest) =
        CbResult.mk PaResult.paComplete [] queue rest) := by
  constructor
  · intro hnf
    unfold pa_stream_cb
    rw [refillLoop_nonfatal p junk frameCount queue pkt rest h hidx hdec hnf]
  · intro hf
    unfold pa_stream_cb
    rw [refillLoop_fatal p junk frameCount queue pkt rest h hidx hdec hf]

/-- C5 witness: a packet rejected by the decoder with return -1 (a
non-fatal code) is skipped and refilling continues with the empty rest of
the source. -/
theorem c5_decode_error_policy_witness :
    (([] : List SampleFrame).length < 1 ∧
      (Packet.mk 0 (-1) []).streamIndex = (0 : Int) ∧
      (decodePacket false 1 1 (Packet.mk 0 (-1) []).sendRes (Packet.mk 0 (-1) []).events).1 < 0) ∧
    ((isFatalDecodeRet (decodePacket false 1 1 (Packet.mk 0 (-1) []).sendRes
        (Packet.mk 0 (-1) []).events).1 = false →
      pa_stream_cb (StreamParams.mk false 1 1 0) (fun _ _ => 0) 1 [] [Packet.mk 0 (-1) []] =
        pa_stream_cb (StreamParams.mk false 1 1 0) (fun _ _ => 0) 1 [] []) ∧
    (isFatalDecodeRet (decodePacket false 1 1 (Packet.mk 0 (-1) []).sendRes
        (Packet.mk 0 (-1) []).events).1 = true →
      pa_stream_cb (StreamParams.mk false 1 1 0) (fun _ _ => 0) 1 [] [Packet.mk 0 (-1) []] =
        CbResult.mk PaResult.paComplete [] [] [])) :=
  ⟨⟨by decide, by decide, by decide⟩,
    c5_decode_error_policy (StreamParams.mk false 1 1 0) (fun _ _ => 0) 1 []
      (Packet.mk 0 (-1) []) [] (by decide) (by decide) (by decide)⟩

/-- C10: when decodePacket returns one of the four fatal codes the
callback returns paComplete at once: nothing is written to the output
buffer and the frames already buffered stay in the queue undelivered; by
contrast the end-of-source drain path flushes the whole queue into the
output buffer before returning paComplete. -/
theorem c10_fatal_returns_without_flush (p : StreamParams) (junk : Nat → Nat → Byte)
    (frameCount : Nat) (queue : List SampleFrame) (pkt : Packet) (rest : List Packet)
    (h : queue.length < frameCount) (hidx : pkt.streamIndex = p.audioStreamIndex)
    (hdec : (decodePacket p.isPlanarAudio p.numChannels p.bytesPerSample
      pkt.sendRes pkt.events).1 < 0)
    (hf : isFatalDecodeRet (decodePacket p.isPlanarAudio p.numChannels p.bytesPerSample
      pkt.sendRes pkt.events).1 = true) :
    pa_stream_cb p junk frameCount queue (pkt :: rest) =
      CbResult.mk PaResult.paComplete [] queue rest ∧
    pa_stream_cb p junk frameCount queue [] =
      CbResult.mk PaResult.paComplete queue.flatten [] [] := by
  constructor
  · unfold pa_stream_cb
    rw [refillLoop_fatal p junk frameCount queue pkt rest h hidx hdec hf]
  · unfold pa_stream_cb
    rw [refillLoop_eos p junk frameCount queue h]

/-- C10 witness: a packet whose send result is AVERROR(EAGAIN) = -11 ends
the callback with paComplete, nothing written and the queued frame kept,
while the drain path would have written it out. -/
theorem c10_fatal_returns_without_flush_witness :
    (([[7]] : List SampleFrame).length < 2 ∧
      (Packet.mk 0 (-11) []).streamIndex = (0 : Int) ∧
      (decodePacket false 1 1 (Packet.mk 0 (-11) []).sendRes
        (Packet.mk 0 (-11) []).events).1 < 0 ∧
      isFatalDecodeRet (decodePacket false 1 1 (Packet.mk 0 (-11) []).sendRes
        (Packet.mk 0 (-11) []).events).1 = true) ∧
    (pa_stream_cb (StreamParams.mk false 1 1 0) (fun _ _ => 0) 2 [[7]] [Packet.mk 0 (-11) []] =
        CbResult.mk PaResult.paComplete [] [[7]] [] ∧
      pa_stream_cb (StreamParams.mk false 1 1 0) (fun _ _ => 0) 2 [[7]] [] =
        CbResult.mk PaResult.paComplete [7] [] []) :=
  ⟨⟨by decide, by decide, by decide, by decide⟩,
    c10_fatal_returns_without_flush (StreamParams.mk false 1 1 0) (fun _ _ => 0) 2 [[7]]
      (Packet.mk 0 (-11) []) [] (by decide) (by decide) (by decide) (by decide)⟩

/-- C1: whenever the fill callback returns paContinue it has copied
exactly frameCount frames, in FIFO order, from the front of the queue the
refill loop produced, each frame removed from the queue as it is copied
(the queue left is the drop of the first frameCount entries), and the
bytes written amount to exactly frameCount * frameSize; it never delivers
fewer while signaling paContinue.  The hypothesis records the session
invariant that every queued frame has size frameSize. -/
theorem c1_continue_exact_delivery (p : StreamParams) (junk : Nat → Nat → Byte)
    (frameCount : Nat) (queue : List SampleFrame) (source : List Packet)
    (hq : ∀ f ∈ queue, f.length = frameSize p)
    (hres : (pa_stream_cb p junk frameCount queue source).result = PaResult.paContinue) :
    ∃ q s, refillLoop p junk frameCount queue source = RefillOut.done q s ∧
      frameCount ≤ q.length ∧
      pa_stream_cb p junk frameCount queue source =
        CbResult.mk PaResult.paContinue (q.take frameCount).flatten (q.drop frameCount) s ∧
      (q.take frameCount).flatten.length = frameCount * frameSize p := by
  unfold pa_stream_cb at hres ⊢
  cases hE : refillLoop p junk frameCount queue source with
  | complete w q s =>
    rw [hE] at hres
    exact absurd hres (by simp)
  | done q s =>
    rw [hE] at hres
    have hle := refillLoop_done_le p junk frameCount source queue q s hE
    have hfr := refillLoop_done_frames p junk frameCount source queue q s hq hE
    refine ⟨q, s, rfl, hle, ?_, ?_⟩
    · simp only [popWrite_eq frameCount q hle]
    · rw [flatten_length_const (frameSize p) _
        (fun f hf => hfr f (List.take_subset frameCount q hf))]
      rw [List.length_take, Nat.min_eq_left hle]

/-- C1 witness: a queue already holding one 2-byte frame serves a request
for one frame, delivering exactly that frame and continuing. -/
theorem c1_continue_exact_delivery_witness :
    ((∀ f ∈ ([[5, 6]] : List SampleFrame), f.length = frameSize (StreamParams.mk false 1 2 0)) ∧
      (pa_stream_cb (StreamParams.mk false 1 2 0) (fun _ _ => 0) 1 [[5, 6]] []).result =
        PaResult.paContinue) ∧
    ∃ q s, refillLoop (StreamParams.mk false 1 2 0) (fun _ _ => 0) 1 [[5, 6]] [] =
        RefillOut.done q s ∧
      1 ≤ q.length ∧
      pa_stream_cb (StreamParams.mk false 1 2 0) (fun _ _ => 0) 1 [[5, 6]] [] =
        CbResult.mk PaResult.paContinue (q.take 1).flatten (q.drop 1) s ∧
      (q.take 1).flatten.length = 1 * frameSize (StreamParams.mk false 1 2 0) :=
  ⟨⟨by decide, by decide⟩,
    c1_continue_exact_delivery (StreamParams.mk false 1 2 0) (fun _ _ => 0) 1 [[5, 6]] []
      (by decide) (by decide)⟩

/-- C4: the planar repack transpose preserves per-channel sample order.
If each of the numChannels channel buffers holds ns samples of
bytesPerSample bytes, then exactly ns frames are produced, and frame j
carries, at byte offset ch * bytesPerSample, precisely sample j of
channel ch (the bytesPerSample-byte slice of that channel buffer at
offset j * bytesPerSample), for every frame index j and channel ch. -/
theorem c4_planar_transpose_order (p : StreamParams) (junk : Nat → Nat → Byte)
    (packetData : List (List Byte)) (ns ch j : Nat)
    (hbps : 0 < p.bytesPerSample)
    (hnc : packetData.length = p.numChannels)
    (hall : ∀ buf ∈ packetData, buf.length = ns * p.bytesPerSample)
    (hch : ch < p.numChannels) (hj : j < ns) :
    (repackPlanar p junk packetData).length = ns ∧
    (((repackPlanar p junk packetData).getD j []).drop (ch * p.bytesPerSample)).take
        p.bytesPerSample =
      ((packetData.getD ch []).drop (j * p.bytesPerSample)).take p.bytesPerSample := by
  have hpos : 0 < packetData.length := by omega
  obtain ⟨b, t, rfl⟩ : ∃ b t, packetData = b :: t := by
    cases packetData with
    | nil => simp at hpos
    | cons b t => exact ⟨b, t, rfl⟩
  have hb : b.length = ns * p.bytesPerSample := hall b (List.mem_cons_self b t)
  unfold repackPlanar
  simp only [List.headD_cons]
  rw [hb]
  have hzero : ns * p.bytesPerSample = 0 + ns * p.bytesPerSample := by omega
  rw [hzero]
  constructor
  · exact repackLoop_length_mul p.bytesPerSample _ hbps ns 0
  · rw [repackLoop_getD_mul p.bytesPerSample _ hbps ns 0 j hj]
    simp only [Nat.zero_add]
    rw [flatten_fixed_slice p.bytesPerSample _ ch
      (fun l hl => by
        obtain ⟨c2, _, rfl⟩ := List.mem_map.mp hl
        exact readBytes_length _ _ _ _)
      (by simpa using hch)]
    rw [List.getD_eq_getElem?_getD, List.getElem?_map, List.getElem?_range hch]
    simp only [Option.map_some', Option.getD_some]
    apply readBytes_in_bounds
    have hmem : (b :: t).getD ch [] ∈ b :: t := by
      rw [List.getD_eq_getElem?_getD, List.getElem?_eq_getElem (by omega)]
      exact List.getElem_mem _
    rw [hall _ hmem]
    calc j * p.bytesPerSample + p.bytesPerSample = (j + 1) * p.bytesPerSample := by ring
      _ ≤ ns * p.bytesPerSample := Nat.mul_le_mul_right _ (by omega)

/-- C4 witness: two planar channels of two 2-byte samples each; frame 1
carries sample 1 of channel 1 at byte offset 2. -/
theorem c4_planar_transpose_order_witness :
    (0 < (StreamParams.mk true 2 2 0).bytesPerSample ∧
      ([[1, 2, 3, 4], [5, 6, 7, 8]] : List (List Byte)).length =
        (StreamParams.mk true 2 2 0).numChannels ∧
      (∀ buf ∈ ([[1, 2, 3, 4], [5, 6, 7, 8]] : List (List Byte)),
        buf.length = 2 * (StreamParams.mk true 2 2 0).bytesPerSample) ∧
      1 < (StreamParams.mk true 2 2 0).numChannels ∧ 1 < 2) ∧
    ((repackPlanar (StreamParams.mk true 2 2 0) (fun _ _ => 0)
        [[1, 2, 3, 4], [5, 6, 7, 8]]).length = 2 ∧
      (((repackPlanar (StreamParams.mk true 2 2 0) (fun _ _ => 0)
          [[1, 2, 3, 4], [5, 6, 7, 8]]).getD 1 []).drop
            (1 * (StreamParams.mk true 2 2 0).bytesPerSample)).take
          (StreamParams.mk true 2 2 0).bytesPerSample =
        ((([[1, 2, 3, 4], [5, 6, 7, 8]] : List (List Byte)).getD 1 []).drop
          (1 * (StreamParams.mk true 2 2 0).bytesPerSample)).take
          (StreamParams.mk true 2 2 0).bytesPerSample) :=
  ⟨⟨by decide, by decide, by decide, by decide, by decide⟩,
    c4_planar_transpose_order (StreamParams.mk true 2 2 0) (fun _ _ => 0)
      [[1, 2, 3, 4], [5, 6, 7, 8]] 2 1 1 (by decide) (by decide) (by decide)
      (by decide) (by decide)⟩

/-- C7: every SampleFrame either repack path pushes onto the frame queue
has byte size exactly numChannels * bytesPerSample — the planar path
builds each frame from numChannels slices of bytesPerSample bytes, the
interleaved path copies numChannels * bytesPerSample bytes per frame — so
the frame size is one session constant for all pushed frames. -/
theorem c7_pushed_frame_size (p : StreamParams) (junk : Nat → Nat → Byte)
    (packetData : List (List Byte)) (f : SampleFrame)
    (hf : f ∈ repackPlanar p junk packetData ∨ f ∈ repackInterleaved p junk packetData) :
    f.length = p.numChannels * p.bytesPerSample := by
  rcases hf with hf | hf
  · exact repackPlanar_frame_length p junk packetData f hf
  · exact repackInterleaved_frame_length p junk packetData f hf

/-- C7 witness: the single frame repacked from a 2-byte interleaved buffer
at 2 channels of 2 bytes has length 4 (its tail filled from past the
buffer end). -/
theorem c7_pushed_frame_size_witness :
    (([1, 2, 0, 0] : SampleFrame) ∈ repackPlanar (StreamParams.mk false 2 2 0)
        (fun _ _ => 0) [[1, 2]] ∨
      ([1, 2, 0, 0] : SampleFrame) ∈ repackInterleaved (StreamParams.mk false 2 2 0)
        (fun _ _ => 0) [[1, 2]]) ∧
    ([1, 2, 0, 0] : SampleFrame).length =
      (StreamParams.mk false 2 2 0).numChannels * (StreamParams.mk false 2 2 0).bytesPerSample := by
  have hEq : repackInterleaved (StreamParams.mk false 2 2 0) (fun _ _ => 0) [[1, 2]] =
      [[1, 2, 0, 0]] := by
    simp [repackInterleaved, repackLoop, readBytes]
    decide
  have hmem : ([1, 2, 0, 0] : SampleFrame) ∈ repackInterleaved (StreamParams.mk false 2 2 0)
      (fun _ _ => 0) [[1, 2]] := by
    rw [hEq]
    exact List.mem_singleton.mpr rfl
  exact ⟨Or.inr hmem,
    c7_pushed_frame_size (StreamParams.mk false 2 2 0) (fun _ _ => 0) [[1, 2]]
      [1, 2, 0, 0] (Or.inr hmem)⟩

/-- C6 counterexample: for a 64-bit float source sample format (packed or
planar) getPaSampleFormat reports failure, so main rejects the source as
having an unsupported sample format instead of proceeding to playback. -/
theorem c6_double_format_rejected :
    getPaSampleFormat AVSampleFormat.AV_SAMPLE_FMT_DBL = none ∧
    getPaSampleFormat AVSampleFormat.AV_SAMPLE_FMT_DBLP = none ∧
    mainAcceptsSampleFormat AVSampleFormat.AV_SAMPLE_FMT_DBL = false ∧
    mainAcceptsSampleFormat AVSampleFormat.AV_SAMPLE_FMT_DBLP = false := by
  decide

/-- C6 amended: sample-format negotiation succeeds exactly for the 8-, 16-
and 32-bit integer and 32-bit float formats (packed or planar); 64-bit
float is not supported and makes the program reject the source. -/
theorem c6_supported_sample_formats :
    ∀ f : AVSampleFormat, mainAcceptsSampleFormat f = true ↔
      f ∈ [AVSampleFormat.AV_SAMPLE_FMT_U8, AVSampleFormat.AV_SAMPLE_FMT_U8P,
        AVSampleFormat.AV_SAMPLE_FMT_S16, AVSampleFormat.AV_SAMPLE_FMT_S16P,
        AVSampleFormat.AV_SAMPLE_FMT_S32, AVSampleFormat.AV_SAMPLE_FMT_S32P,
        AVSampleFormat.AV_SAMPLE_FMT_FLT, AVSampleFormat.AV_SAMPLE_FMT_FLTP] := by
  decide

/-- C2: the repacker does not drop trailing bytes short of one full frame.
On an interleaved per-packet buffer of 5 bytes with frame size
numChannels * bytesPerSample = 4, the loop condition offset < size admits
a last iteration at offset 4 whose memcpy reads 3 bytes past the end of
the buffer (junk bytes, modelled here as 105, 106, 107), so 2 frames are
pushed where dropping the 1 trailing byte would push floor(5 / 4) = 1. -/
theorem c2_trailing_bytes_not_dropped :
    repackInterleaved (StreamParams.mk false 2 2 0) (fun _ i => 100 + i) [[1, 2, 3, 4, 5]] =
      [[1, 2, 3, 4], [5, 105, 106, 107]] ∧
    (repackInterleaved (StreamParams.mk false 2 2 0) (fun _ i => 100 + i)
      [[1, 2, 3, 4, 5]]).length ≠ ([1, 2, 3, 4, 5] : List Byte).length / 4 := by
  have hEq : repackInterleaved (StreamParams.mk false 2 2 0) (fun _ i => 100 + i)
      [[1, 2, 3, 4, 5]] = [[1, 2, 3, 4], [5, 105, 106, 107]] := by
    simp [repackInterleaved, repackLoop, readBytes]
    decide
  refine ⟨hEq, ?_⟩
  rw [hEq]
  decide
